import Mathlib

/-!
Verification development for the MeshSimplifier batch pipeline
(`src/mesh_simplifier/main.cpp`).

The orchestration code is shallowly embedded: strings are `List Char`,
filesystem paths are lists of name components relative to their root,
the external mesh-processing engine (plugin registry, mesh documents,
the decimation filter) is modelled by the outcome data recorded in
`FileModel` and `Registry`, and C++ `float` arithmetic in the parameter
builder is modelled exactly over `ℚ` together with the truncating
float-to-int conversion.  Exceptions and null handles are modelled with
`Option`: `none` stands for a run whose behaviour is not defined by the
source (a dereference of a null mesh handle).
-/

set_option autoImplicit false

/-- Model of C `toupper` under the "C" locale (set by `main` via
`setlocale`): maps the lowercase ASCII letters to uppercase and leaves
every other character unchanged. -/
def toupper (c : Char) : Char :=
  if 'a' ≤ c ∧ c ≤ 'z' then Char.ofNat (c.toNat - 32) else c

/-- Embedding of `compare_case_insensitive` (main.cpp lines 48-54):
equal sizes and, position by position, either the characters are equal or
their `toupper` images are equal. -/
def compare_case_insensitive (lhs rhs : List Char) : Bool :=
  (lhs.length == rhs.length) &&
    (lhs.zip rhs).all (fun p => p.1 == p.2 || toupper p.1 == toupper p.2)

/-- Model of `std::filesystem::path::extension()` on a filename: the part
from the last dot on, except that `.`, `..` and filenames whose only dot
is the leading character have no extension. -/
def extensionOf (name : List Char) : List Char :=
  if name = ['.'] ∨ name = ['.', '.'] then []
  else
    let after := (name.reverse.takeWhile (fun c => c ≠ '.')).reverse
    if after.length = name.length then []
    else if after.length + 1 = name.length then []
    else '.' :: after

/-- The stem of a filename: everything before its `extensionOf` part. -/
def stemOf (name : List Char) : List Char :=
  name.take (name.length - (extensionOf name).length)

/-- Model of `std::filesystem::path::replace_extension`: drop the current
extension and append the new one (main.cpp line 439 passes `".obj"`). -/
def replace_extension (name newExt : List Char) : List Char :=
  stemOf name ++ newExt

/-- Model of `QFileInfo::suffix()` (used by `import_mesh` line 128): the
part after the last dot, without the dot; empty when there is no dot. -/
def suffixOf (name : List Char) : List Char :=
  let after := (name.reverse.takeWhile (fun c => c ≠ '.')).reverse
  if after.length = name.length then [] else after

/-- The fixed output extension of the export stage. -/
def objChars : List Char := ['.', 'o', 'b', 'j']

/-- Truncation of a rational toward zero: the value of the C++
float-to-int conversion applied to an exactly represented product. -/
def truncQ (q : ℚ) : ℤ :=
  if q < 0 then -Int.floor (-q) else Int.floor q

/-- Modelled from the spec: `round(x)` as used in §4.3 ("target face
count = round(currentFaceCount * ratio)") — nearest integer, halves away
from zero.  The source has no rounding call; this definition exists only
to compare the spec's words with the code. -/
def roundSpec (q : ℚ) : ℤ :=
  if q < 0 then -Int.floor (-q + 1/2) else Int.floor (q + 1/2)

/-- The named parameter set built by `build_simplification_parameters`
(main.cpp lines 172-208), keeping the value of every key of the fixed
contract. -/
structure SimplificationParameters where
  TargetFaceNum : ℤ
  TargetPerc : ℚ
  QualityThr : ℚ
  PreserveBoundary : Bool
  BoundaryWeight : ℚ
  PreserveNormal : Bool
  PreserveTopology : Bool
  OptimalPlacement : Bool
  PlanarQuadric : Bool
  PlanarWeight : ℚ
  QualityWeight : Bool
  AutoClean : Bool
  Selected : Bool
deriving DecidableEq

/-- Embedding of `build_simplification_parameters` (main.cpp lines
172-208).  `fn` is `mesh_model.cm.fn` (total face count), `sfn` is
`mesh_model.cm.sfn` (selected face count), `r` the target face ratio and
`q` the quality threshold.  Float arithmetic is modelled exactly over
`ℚ`; the implicit float-to-int conversion in the `RichInt` argument
truncates toward zero (`truncQ`). -/
def build_simplification_parameters (fn sfn : ℕ) (r q : ℚ) :
    SimplificationParameters where
  TargetFaceNum := if 0 < sfn then truncQ ((sfn : ℚ) * r) else truncQ ((fn : ℚ) * r)
  TargetPerc := 0
  QualityThr := q
  PreserveBoundary := true
  BoundaryWeight := 1
  PreserveNormal := false
  PreserveTopology := false
  OptimalPlacement := true
  PlanarQuadric := false
  PlanarWeight := 1/1000
  QualityWeight := false
  AutoClean := true
  Selected := sfn > 0

/-- The model of the external plugin/capability registry (spec §6): the
extension tokens (without dot, as `QFileInfo::suffix` and the QString
extension computation of `export_mesh` produce them) for which an import
or export capability is registered.  Lookup is case-sensitive on the
registered token (spec §4.2). -/
structure Registry where
  importExts : List (List Char)
  exportExts : List (List Char)
deriving DecidableEq

/-- The facts about one source file and the external engine's behaviour
on it that the orchestration code branches on: existence, readability,
whether `meshlab::loadMesh` raises `MLException`, how many meshes
`numberMeshesContainedInFile` reports, the loaded model's total and
selected face counts (`cm.fn`, `cm.sfn`), whether the decimation filter
raises, and — separately, since the source performs them as two calls —
whether the `save` call (main.cpp line 89) and the `saveTextures` call
(line 90) raise. -/
structure FileModel where
  fileExists : Bool
  readable : Bool
  loadThrows : Bool
  meshCount : ℕ
  fn : ℕ
  sfn : ℕ
  simplifyThrows : Bool
  saveThrows : Bool
  textureThrows : Bool
deriving DecidableEq

/-- One entry produced by `recursive_directory_iterator`: whether it is a
directory, its directory components relative to the source root, its
filename, and the behaviour model of the file. -/
structure Entry where
  isDir : Bool
  relDirs : List (List Char)
  filename : List Char
  file : FileModel
deriving DecidableEq

/-- The mutable state of one batch run: the two counters and the
destination tree (directories as component lists relative to the
destination root — `[]` is the root itself — and output files as
directory-plus-filename pairs). -/
structure RunState where
  success : ℕ
  fail : ℕ
  dirs : List (List (List Char))
  files : List (List (List Char) × List Char)
deriving DecidableEq

/-- The job configuration derived from the validated CLI input: the
registry, the source extension filter (with leading dot), the target
face ratio and the mesh quality threshold (both already scaled to
rationals in [0,1]). -/
structure Config where
  reg : Registry
  filter : List Char
  r : ℚ
  quality : ℚ

/-- Embedding of `import_mesh` (main.cpp lines 100-170).  Returns the
function's boolean result together with the number of meshes left in the
mesh document.  The branches follow the source: missing file, unreadable
file and unregistered extension return `false`; when `meshlab::loadMesh`
raises `MLException`, the catch block deletes every added mesh and the
function still falls through to `return true`, leaving an empty
document. -/
def import_mesh (reg : Registry) (filename : List Char) (f : FileModel) :
    Bool × ℕ :=
  if ¬ f.fileExists then (false, 0)
  else if ¬ f.readable then (false, 0)
  else if ¬ (suffixOf filename ∈ reg.importExts) then (false, 0)
  else if f.loadThrows then (true, 0)
  else (true, f.meshCount)

/-- Embedding of `simplify` (main.cpp lines 215-239): applies the
external decimation filter with the built parameter set; `applyFilter`
raising `std::bad_alloc` or `MLException` yields `false`, otherwise
`true`.  The filter itself is the external capability, so its outcome is
the `simplifyThrows` field of the file model; the parameter set is
passed through but not inspected by this adapter. -/
def simplify (_params : SimplificationParameters) (f : FileModel) : Bool :=
  !f.simplifyThrows

/-- Model of the QString extension computation in `export_mesh`
(main.cpp lines 69-70): `remove(0, lastIndexOf('.') + 1)` keeps the part
after the last dot and, when there is no dot, leaves the whole string. -/
def qExtensionOf (s : List Char) : List Char :=
  if '.' ∈ s then (s.reverse.takeWhile (fun c => c ≠ '.')).reverse else s

/-- Embedding of `export_mesh` (main.cpp lines 56-98).  Returns the
function's boolean result together with whether the `save` call at line
89 wrote the output mesh file.  Empty output path or missing export
capability return `false` with nothing written; `save` raising
`MLException` returns `false` with nothing written; when `save` succeeds
but the `saveTextures` call at line 90 then raises `MLException`, the
output mesh file has already been written yet the single try/catch makes
the function return `false`; only when both calls succeed does it return
`true`.  Texture files themselves are not tracked in the
destination-tree model. -/
def export_mesh (reg : Registry) (outName : List Char) (f : FileModel) :
    Bool × Bool :=
  if outName.isEmpty then (false, false)
  else if ¬ (qExtensionOf outName ∈ reg.exportExts) then (false, false)
  else if f.saveThrows then (false, false)
  else if f.textureThrows then (false, true)
  else (true, true)

/-- Boolean membership in a list, used to model filesystem existence
checks on the destination tree. -/
def memB {α : Type} [DecidableEq α] (a : α) (l : List α) : Bool :=
  decide (a ∈ l)

/-- All ancestors of a directory given by its component list, from the
root `[]` up to the directory itself. -/
def ancestors (d : List (List Char)) : List (List (List Char)) :=
  (List.range (d.length + 1)).map (fun n => d.take n)

/-- Model of `std::filesystem::create_directories`: create every missing
directory on the path from the root to `d`. -/
def create_directories (s : List (List (List Char))) (d : List (List Char)) :
    List (List (List Char)) :=
  s ++ (ancestors d).filter (fun a => ¬ memB a s)

/-- The enumeration guard of the main loop (main.cpp lines 389-399): an
entry enters the pipeline when it is not a directory and its
`extension()` compares case-insensitively equal to the configured
filter. -/
def matchesFilterB (cfg : Config) (e : Entry) : Bool :=
  !e.isDir && compare_case_insensitive (extensionOf e.filename) cfg.filter

/-- The export stage of the main loop (main.cpp lines 439-464), entered
with the state produced by the `create_directories` call of line 437:
the output filename is the entry's filename with its extension replaced
by `.obj`; the output mesh file enters the destination tree as soon as
the underlying `save` call succeeds — also when the subsequent texture
export fails and the entry is counted a failure; a failed export
increments the failure counter, a successful one the success counter. -/
def exportStage (cfg : Config) (st : RunState) (e : Entry) : RunState :=
  let outName := replace_extension e.filename objChars
  let ex := export_mesh cfg.reg outName e.file
  let st1 :=
    if ex.2 then { st with files := (e.relDirs, outName) :: st.files } else st
  if ¬ ex.1 then { st1 with fail := st1.fail + 1 }
  else { st1 with success := st1.success + 1 }

/-- Embedding of one iteration of the main loop (main.cpp lines
387-466).  Directories and non-matching files are skipped; a failed
mesh import increments the failure counter and continues; when the import
call reports success but left the document empty (the `loadMesh`
exception path, or a file containing no meshes), `mesh_document.mm()` is
null and the dereference at line 417 has no defined result, modelled as
`none`; a failed simplification increments the failure counter; then the
mirrored output directories are created and the export stage runs. -/
def processEntry (cfg : Config) (st : RunState) (e : Entry) : Option RunState :=
  if e.isDir then some st
  else if ¬ compare_case_insensitive (extensionOf e.filename) cfg.filter then some st
  else
    let im := import_mesh cfg.reg e.filename e.file
    if ¬ im.1 then some { st with fail := st.fail + 1 }
    else if im.2 = 0 then none
    else
      let params := build_simplification_parameters e.file.fn e.file.sfn cfg.r cfg.quality
      if ¬ simplify params e.file then some { st with fail := st.fail + 1 }
      else
        some (exportStage cfg { st with dirs := create_directories st.dirs e.relDirs } e)

/-- The main loop over the enumerated entries, threading the run state;
`none` propagates a state with no defined behaviour. -/
def runFrom (cfg : Config) (st : RunState) : List Entry → Option RunState
  | [] => some st
  | e :: es =>
    match processEntry cfg st e with
    | none => none
    | some st' => runFrom cfg st' es

/-- The destination tree: directories and output files. -/
abbrev DestTree := List (List (List Char)) × List (List (List Char) × List Char)

/-- Embedding of the destination-root setup (main.cpp lines 370-374): an
existing destination root is removed entirely with `remove_all`, then
`create_directories` recreates it, so whatever the prior tree was, the
run starts from a tree holding only the root. -/
def destination_setup (_prior : DestTree) : DestTree := ([[]], [])

/-- The run state at the start of the loop: zero counters and the
destination tree left by `destination_setup`. -/
def initState : RunState := { success := 0, fail := 0, dirs := [[]], files := [] }

/-- The whole batch over a prior destination tree: destination setup
followed by the main loop; returns the final destination tree. -/
def full_batch (cfg : Config) (entries : List Entry) (prior : DestTree) :
    Option DestTree :=
  let t := destination_setup prior
  (runFrom cfg { success := 0, fail := 0, dirs := t.1, files := t.2 } entries).map
    (fun st => (st.dirs, st.files))

/-- Embedding of the tail of `main` (main.cpp lines 383-477): run the
loop from the initial state and, when traversal completes, return the
final counters together with the process exit code, which line 476 fixes
at `0`. -/
def main_exit (cfg : Config) (entries : List Entry) : Option (ℕ × ℕ × ℤ) :=
  (runFrom cfg initState entries).map (fun st => (st.success, st.fail, 0))

/-- The number of enumerated entries that pass the pipeline guard. -/
def countMatching (cfg : Config) (entries : List Entry) : ℕ :=
  (entries.filter (fun e => matchesFilterB cfg e)).length

/-- An entry on which some pipeline stage fails in the recoverable sense
of the source — the stage function returns `false` and the loop
continues: import returns `false`, or import succeeds with a non-empty
document and the simplification returns `false`, or both succeed and the
export returns `false`. -/
def failsAtSomeStage (cfg : Config) (e : Entry) : Bool :=
  matchesFilterB cfg e &&
    (let im := import_mesh cfg.reg e.filename e.file
     let params := build_simplification_parameters e.file.fn e.file.sfn cfg.r cfg.quality
     !im.1 ||
       (im.1 && im.2 != 0 &&
         (!simplify params e.file ||
           (simplify params e.file &&
             !(export_mesh cfg.reg (replace_extension e.filename objChars) e.file).1))))

/-- Sample registry: an importer registered for the `3ds` token and an
exporter for the `obj` token. -/
def sampleReg : Registry :=
  { importExts := [['3', 'd', 's']], exportExts := [['o', 'b', 'j']] }

/-- Sample job configuration: filter `.3ds`, ratio 1/2, quality 3/10. -/
def sampleCfg : Config :=
  { reg := sampleReg, filter := ['.', '3', 'd', 's'], r := 1/2, quality := 3/10 }

/-- A file on which every stage succeeds: one mesh, 100 faces, no
selection. -/
def goodFile : FileModel :=
  { fileExists := true, readable := true, loadThrows := false, meshCount := 1,
    fn := 100, sfn := 0, simplifyThrows := false, saveThrows := false,
    textureThrows := false }

/-- A file whose underlying `loadMesh` call raises `MLException`. -/
def loadErrorFile : FileModel := { goodFile with loadThrows := true }

/-- A file whose `save` call raises `MLException`, so no output mesh
file is written. -/
def saveErrorFile : FileModel := { goodFile with saveThrows := true }

/-- A file whose `saveTextures` call raises `MLException` after a
successful `save` of the output mesh file. -/
def textureErrorFile : FileModel := { goodFile with textureThrows := true }

/-- A file that does not exist on disk. -/
def missingFile : FileModel := { goodFile with fileExists := false }

/-- A matching entry at the source root on which the whole pipeline
succeeds. -/
def goodEntry : Entry :=
  { isDir := false, relDirs := [], filename := ['x', '.', '3', 'd', 's'],
    file := goodFile }

/-- A matching entry two directories deep whose export fails at the
`save` call. -/
def exportFailEntry : Entry :=
  { isDir := false, relDirs := [['a'], ['b']],
    filename := ['c', '.', '3', 'd', 's'], file := saveErrorFile }

/-- A matching entry two directories deep whose export fails only at the
texture step, after the mesh file was saved. -/
def textureFailEntry : Entry :=
  { isDir := false, relDirs := [['a'], ['b']],
    filename := ['t', '.', '3', 'd', 's'], file := textureErrorFile }

/-- A matching entry two directories deep on which the whole pipeline
succeeds. -/
def nestedGoodEntry : Entry :=
  { isDir := false, relDirs := [['a'], ['b']],
    filename := ['c', '.', '3', 'd', 's'], file := goodFile }

/-- A matching entry whose underlying load raises `MLException`. -/
def loadErrorEntry : Entry :=
  { isDir := false, relDirs := [], filename := ['y', '.', '3', 'd', 's'],
    file := loadErrorFile }

/-- A matching entry whose import fails because the file is missing. -/
def importFailEntry : Entry :=
  { isDir := false, relDirs := [], filename := ['w', '.', '3', 'd', 's'],
    file := missingFile }
/-- An entry with an uppercase variant of the filtered extension, to
exercise case-insensitive matching. -/
def upperEntry : Entry :=
  { isDir := false, relDirs := [], filename := ['X', '.', '3', 'D', 'S'],
    file := goodFile }

/-- C3 counterexample: with 3 faces, no selection and ratio 1/2 the
builder stores TargetFaceNum 1 — the truncation of 1.5 — while the
claimed `round(currentFaceCount * targetFaceRatio)` is 2. -/
theorem targetFaceNum_not_round :
    (build_simplification_parameters 3 0 (1/2) (3/10)).TargetFaceNum ≠
      roundSpec ((3 : ℚ) * (1/2)) := by
  norm_num [build_simplification_parameters, truncQ, roundSpec]

/-- C3 (amended): for a mesh with no pre-existing face selection the
builder sets TargetFaceNum to the truncation toward zero (the C++
float-to-int conversion) of currentFaceCount * targetFaceRatio, not its
rounding; the builder is pure and deterministic — the value is a
function of the face count and the ratio alone, in particular identical
across different quality thresholds. -/
theorem targetFaceNum_trunc_of_no_selection :
    ∀ (fn : ℕ) (r q q' : ℚ),
      (build_simplification_parameters fn 0 r q).TargetFaceNum =
          truncQ ((fn : ℚ) * r)
      ∧ (build_simplification_parameters fn 0 r q).TargetFaceNum =
          (build_simplification_parameters fn 0 r q').TargetFaceNum := by
  intro fn r q q'
  constructor <;> simp [build_simplification_parameters]

/-- C4: when the loaded mesh carries a selected-face subset (selected
face count positive), TargetFaceNum is computed from the selected count
— the total face count does not influence it — and the Selected
parameter is true exactly when such a selection is present. -/
theorem selected_subset_drives_target :
    ∀ (fn fn' sfn : ℕ) (r q : ℚ),
      (0 < sfn →
        (build_simplification_parameters fn sfn r q).TargetFaceNum =
            truncQ ((sfn : ℚ) * r)
        ∧ (build_simplification_parameters fn sfn r q).TargetFaceNum =
            (build_simplification_parameters fn' sfn r q).TargetFaceNum)
      ∧ ((build_simplification_parameters fn sfn r q).Selected = true ↔ 0 < sfn) := by
  intro fn fn' sfn r q
  constructor
  · intro h
    constructor <;> simp [build_simplification_parameters, h]
  · simp [build_simplification_parameters]

/-- Witness for C4 at a mesh with 10 total faces, 4 selected, ratio 1/2:
the target comes from the selected count and ignores the total. -/
theorem selected_subset_drives_target_witness :
    0 < 4
    ∧ (build_simplification_parameters 10 4 (1/2) (3/10)).TargetFaceNum =
        truncQ ((4 : ℚ) * (1/2))
    ∧ (build_simplification_parameters 10 4 (1/2) (3/10)).TargetFaceNum =
        (build_simplification_parameters 7 4 (1/2) (3/10)).TargetFaceNum :=
  ⟨by norm_num,
   ((selected_subset_drives_target 10 7 4 (1/2) (3/10)).1 (by norm_num)).1,
   ((selected_subset_drives_target 10 7 4 (1/2) (3/10)).1 (by norm_num)).2⟩

/-- Pointwise collapse of the comparator of `compare_case_insensitive`:
the plain-equality disjunct is subsumed by equality of `toupper`
images. -/
lemma cci_point (a b : Char) :
    (a == b || toupper a == toupper b) = (toupper a == toupper b) := by
  by_cases h : a = b
  · subst h; simp
  · simp [h]

/-- Unfolding of `compare_case_insensitive` into its two conjuncts. -/
lemma cci_unfold (l r : List Char) :
    compare_case_insensitive l r = true ↔
      l.length = r.length ∧
        (l.zip r).all (fun p => p.1 == p.2 || toupper p.1 == toupper p.2) = true := by
  simp [compare_case_insensitive, Bool.and_eq_true]

/-- `compare_case_insensitive` holds exactly when the `toupper` images of
the two strings coincide. -/
lemma cci_iff :
    ∀ lhs rhs : List Char,
      compare_case_insensitive lhs rhs = true ↔ lhs.map toupper = rhs.map toupper := by
  intro lhs
  induction lhs with
  | nil =>
    intro rhs
    cases rhs <;> simp [compare_case_insensitive]
  | cons a l ih =>
    intro rhs
    cases rhs with
    | nil => simp [compare_case_insensitive]
    | cons b r =>
      rw [cci_unfold]
      simp only [List.zip_cons_cons, List.all_cons, List.length_cons,
        Bool.and_eq_true, List.map_cons, List.cons.injEq]
      constructor
      · rintro ⟨hlen, hp, hall⟩
        refine ⟨?_, (ih r).mp ((cci_unfold l r).mpr ⟨by omega, hall⟩)⟩
        rw [cci_point] at hp
        exact beq_iff_eq.mp hp
      · rintro ⟨hab, hmap⟩
        have hrec := (cci_unfold l r).mp ((ih r).mpr hmap)
        exact ⟨by omega, by rw [cci_point]; exact beq_iff_eq.mpr hab, hrec.2⟩

/-- Directories are skipped: the loop body leaves the state untouched. -/
lemma processEntry_skip_dir (cfg : Config) (st : RunState) (e : Entry)
    (h : e.isDir = true) : processEntry cfg st e = some st := by
  simp [processEntry, h]

/-- Files whose extension does not pass the case-insensitive filter are
skipped: the loop body leaves the state untouched. -/
lemma processEntry_skip_filter (cfg : Config) (st : RunState) (e : Entry)
    (h : compare_case_insensitive (extensionOf e.filename) cfg.filter = false) :
    processEntry cfg st e = some st := by
  by_cases hd : e.isDir = true
  · exact processEntry_skip_dir cfg st e hd
  · simp at hd
    simp [processEntry, hd, h]

/-- A failed import increments the failure counter and nothing else. -/
lemma processEntry_import_fail (cfg : Config) (st : RunState) (e : Entry)
    (hdir : e.isDir = false)
    (hcci : compare_case_insensitive (extensionOf e.filename) cfg.filter = true)
    (him : (import_mesh cfg.reg e.filename e.file).1 = false) :
    processEntry cfg st e = some { st with fail := st.fail + 1 } := by
  simp [processEntry, hdir, hcci, him]

/-- When the import call reports success but left the mesh document
empty, the dereference of the null current mesh has no defined result. -/
lemma processEntry_crash (cfg : Config) (st : RunState) (e : Entry)
    (hdir : e.isDir = false)
    (hcci : compare_case_insensitive (extensionOf e.filename) cfg.filter = true)
    (him1 : (import_mesh cfg.reg e.filename e.file).1 = true)
    (him2 : (import_mesh cfg.reg e.filename e.file).2 = 0) :
    processEntry cfg st e = none := by
  simp [processEntry, hdir, hcci, him1, him2]

/-- A failed simplification increments the failure counter and nothing
else. -/
lemma processEntry_simplify_fail (cfg : Config) (st : RunState) (e : Entry)
    (hdir : e.isDir = false)
    (hcci : compare_case_insensitive (extensionOf e.filename) cfg.filter = true)
    (him1 : (import_mesh cfg.reg e.filename e.file).1 = true)
    (him2 : (import_mesh cfg.reg e.filename e.file).2 ≠ 0)
    (hs : e.file.simplifyThrows = true) :
    processEntry cfg st e = some { st with fail := st.fail + 1 } := by
  simp [processEntry, hdir, hcci, him1, him2, simplify, hs]

/-- An entry that passes import and simplification reaches the export
stage with the mirrored output directories already created. -/
lemma processEntry_to_export (cfg : Config) (st : RunState) (e : Entry)
    (hdir : e.isDir = false)
    (hcci : compare_case_insensitive (extensionOf e.filename) cfg.filter = true)
    (him1 : (import_mesh cfg.reg e.filename e.file).1 = true)
    (him2 : (import_mesh cfg.reg e.filename e.file).2 ≠ 0)
    (hs : e.file.simplifyThrows = false) :
    processEntry cfg st e =
      some (exportStage cfg { st with dirs := create_directories st.dirs e.relDirs } e) := by
  simp [processEntry, hdir, hcci, him1, him2, simplify, hs]

/-- An export whose `save` call already failed (or that never reached
it) increments the failure counter and writes nothing. -/
lemma exportStage_fail_save (cfg : Config) (st : RunState) (e : Entry)
    (hx : export_mesh cfg.reg (replace_extension e.filename objChars) e.file
      = (false, false)) :
    exportStage cfg st e = { st with fail := st.fail + 1 } := by
  simp [exportStage, hx]

/-- An export failing only at the texture step increments the failure
counter, but the output mesh file has already been written and stays in
the destination tree. -/
lemma exportStage_fail_texture (cfg : Config) (st : RunState) (e : Entry)
    (hx : export_mesh cfg.reg (replace_extension e.filename objChars) e.file
      = (false, true)) :
    exportStage cfg st e =
      { st with
        files := (e.relDirs, replace_extension e.filename objChars) :: st.files,
        fail := st.fail + 1 } := by
  simp [exportStage, hx]

/-- A `true` export result means both calls succeeded, so in particular
the output mesh file was written. -/
lemma export_mesh_ok_pair (reg : Registry) (outName : List Char) (f : FileModel)
    (h : (export_mesh reg outName f).1 = true) :
    export_mesh reg outName f = (true, true) := by
  by_cases h1 : outName.isEmpty = true <;>
    by_cases h2 : qExtensionOf outName ∈ reg.exportExts <;>
      by_cases h3 : f.saveThrows = true <;>
        by_cases h4 : f.textureThrows = true <;>
          simp_all [export_mesh]

/-- A successful export increments the success counter and records the
mirrored output file. -/
lemma exportStage_ok (cfg : Config) (st : RunState) (e : Entry)
    (hx : (export_mesh cfg.reg (replace_extension e.filename objChars) e.file).1
      = true) :
    exportStage cfg st e =
      { st with success := st.success + 1,
                files := (e.relDirs, replace_extension e.filename objChars) :: st.files } := by
  have hp := export_mesh_ok_pair cfg.reg (replace_extension e.filename objChars)
    e.file hx
  simp [exportStage, hp]

/-- The two components of a satisfied pipeline guard. -/
lemma matchesFilterB_parts (cfg : Config) (e : Entry)
    (hm : matchesFilterB cfg e = true) :
    e.isDir = false ∧
      compare_case_insensitive (extensionOf e.filename) cfg.filter = true := by
  simpa [matchesFilterB, Bool.and_eq_true, Bool.not_eq_true'] using hm

/-- A matching entry on which the loop body completes bumps exactly one
of the two counters, by exactly one. -/
lemma processEntry_matched_counters (cfg : Config) (st : RunState) (e : Entry)
    (st' : RunState) (hm : matchesFilterB cfg e = true)
    (h : processEntry cfg st e = some st') :
    (st'.success = st.success ∧ st'.fail = st.fail + 1) ∨
      (st'.success = st.success + 1 ∧ st'.fail = st.fail) := by
  obtain ⟨hdir, hcci⟩ := matchesFilterB_parts cfg e hm
  by_cases him1 : (import_mesh cfg.reg e.filename e.file).1 = true
  · by_cases him2 : (import_mesh cfg.reg e.filename e.file).2 = 0
    · rw [processEntry_crash cfg st e hdir hcci him1 him2] at h
      cases h
    · by_cases hs : e.file.simplifyThrows = true
      · rw [processEntry_simplify_fail cfg st e hdir hcci him1 him2 hs] at h
        injection h with h
        subst h
        exact Or.inl ⟨rfl, rfl⟩
      · simp only [Bool.not_eq_true] at hs
        rw [processEntry_to_export cfg st e hdir hcci him1 him2 hs] at h
        injection h with h
        subst h
        by_cases hx : (export_mesh cfg.reg (replace_extension e.filename objChars)
            e.file).1 = true
        · rw [exportStage_ok cfg _ e hx]
          exact Or.inr ⟨rfl, rfl⟩
        · simp only [Bool.not_eq_true] at hx
          by_cases hx2 : (export_mesh cfg.reg (replace_extension e.filename objChars)
              e.file).2 = true
          · rw [exportStage_fail_texture cfg _ e (Prod.ext hx hx2)]
            exact Or.inl ⟨rfl, rfl⟩
          · simp only [Bool.not_eq_true] at hx2
            rw [exportStage_fail_save cfg _ e (Prod.ext hx hx2)]
            exact Or.inl ⟨rfl, rfl⟩
  · simp only [Bool.not_eq_true] at him1
    rw [processEntry_import_fail cfg st e hdir hcci him1] at h
    injection h with h
    subst h
    exact Or.inl ⟨rfl, rfl⟩

/-- A non-matching entry leaves the state untouched. -/
lemma processEntry_unmatched (cfg : Config) (st : RunState) (e : Entry)
    (hm : matchesFilterB cfg e = false) :
    processEntry cfg st e = some st := by
  by_cases hd : e.isDir = true
  · exact processEntry_skip_dir cfg st e hd
  · simp only [Bool.not_eq_true] at hd
    have hcci : compare_case_insensitive (extensionOf e.filename) cfg.filter = false := by
      simpa [matchesFilterB, hd] using hm
    exact processEntry_skip_filter cfg st e hcci

/-- The loop over a concatenation is the loop over the first part
followed, when it completes, by the loop over the second. -/
lemma runFrom_append (cfg : Config) :
    ∀ (xs ys : List Entry) (st : RunState),
      runFrom cfg st (xs ++ ys) =
        (runFrom cfg st xs).bind (fun s => runFrom cfg s ys) := by
  intro xs
  induction xs with
  | nil => intro ys st; rfl
  | cons e es ih =>
    intro ys st
    simp only [List.cons_append, runFrom]
    cases processEntry cfg st e with
    | none => rfl
    | some st' => simpa using ih ys st'

/-- Completing the loop adds to the initial counters exactly the number
of matching entries. -/
lemma runFrom_counters (cfg : Config) :
    ∀ (es : List Entry) (st st' : RunState),
      runFrom cfg st es = some st' →
        st'.success + st'.fail = st.success + st.fail + countMatching cfg es := by
  intro es
  induction es with
  | nil =>
    intro st st' h
    injection h with h
    subst h
    simp [countMatching]
  | cons e es ih =>
    intro st st' h
    unfold runFrom at h
    cases hp : processEntry cfg st e with
    | none => rw [hp] at h; cases h
    | some st1 =>
      rw [hp] at h
      have hrec := ih st1 st' h
      by_cases hm : matchesFilterB cfg e = true
      · rcases processEntry_matched_counters cfg st e st1 hm hp with ⟨h1, h2⟩ | ⟨h1, h2⟩ <;>
          · rw [hrec, h1, h2]
            simp [countMatching, List.filter_cons, hm]
            omega
      · simp only [Bool.not_eq_true] at hm
        have := processEntry_unmatched cfg st e hm
        rw [hp] at this
        injection this with this
        subst this
        rw [hrec]
        simp [countMatching, List.filter_cons, hm]

/-- C2: for every run that completes traversal, the final counters
partition the matching entries — their sum is the number of enumerated
entries that are files whose extension passes the filter — and each loop
iteration that completes bumps exactly one counter by exactly one on a
matching entry and leaves the state untouched on a non-matching one, so
the counters are never decremented. -/
theorem counters_partition_entries :
    ∀ cfg : Config,
      (∀ (entries : List Entry) (st' : RunState),
          runFrom cfg initState entries = some st' →
            st'.success + st'.fail = countMatching cfg entries)
      ∧ (∀ (st : RunState) (e : Entry) (st' : RunState),
          processEntry cfg st e = some st' →
            (matchesFilterB cfg e = true →
              (st'.success = st.success ∧ st'.fail = st.fail + 1) ∨
                (st'.success = st.success + 1 ∧ st'.fail = st.fail))
            ∧ (matchesFilterB cfg e = false → st' = st)) := by
  intro cfg
  constructor
  · intro entries st' h
    have := runFrom_counters cfg entries initState st' h
    simpa [initState] using this
  · intro st e st' h
    constructor
    · intro hm
      exact processEntry_matched_counters cfg st e st' hm h
    · intro hm
      have := processEntry_unmatched cfg st e hm
      rw [h] at this
      injection this

/-- Witness for C2: a two-entry batch — one success, one import failure
— ends with counters 1 and 1, summing to the two matching entries. -/
theorem counters_partition_entries_witness :
    runFrom sampleCfg initState [goodEntry, importFailEntry] =
      some { success := 1, fail := 1, dirs := [[]],
             files := [([], ['x', '.', 'o', 'b', 'j'])] }
    ∧ (1 : ℕ) + 1 = countMatching sampleCfg [goodEntry, importFailEntry] :=
  ⟨by decide,
   (counters_partition_entries sampleCfg).1 [goodEntry, importFailEntry]
     { success := 1, fail := 1, dirs := [[]],
       files := [([], ['x', '.', 'o', 'b', 'j'])] } (by decide)⟩


/-- C6: an entry enters the pipeline — observable as the loop body not
returning the state unchanged, since every entering entry bumps a
counter or has no defined result — if and only if it is not a directory
and the `toupper` images of its extension and of the configured filter
coincide, i.e. the extension matches the filter case-insensitively;
directories never enter. -/
theorem pipeline_guard_iff :
    ∀ (cfg : Config) (st : RunState) (e : Entry),
      processEntry cfg st e ≠ some st ↔
        e.isDir = false ∧
          (extensionOf e.filename).map toupper = cfg.filter.map toupper := by
  intro cfg st e
  constructor
  · intro h
    by_cases hm : matchesFilterB cfg e = true
    · obtain ⟨hdir, hcci⟩ := matchesFilterB_parts cfg e hm
      exact ⟨hdir, (cci_iff _ _).mp hcci⟩
    · simp only [Bool.not_eq_true] at hm
      exact absurd (processEntry_unmatched cfg st e hm) h
  · rintro ⟨hdir, hmap⟩
    have hcci := (cci_iff _ _).mpr hmap
    have hm : matchesFilterB cfg e = true := by
      simp [matchesFilterB, hdir, hcci]
    intro hsome
    rcases processEntry_matched_counters cfg st e st hm hsome with ⟨_, h2⟩ | ⟨h1, _⟩
    · omega
    · omega

/-- Witness for C6: a file named `X.3DS` passes a configured `.3ds`
filter, so its loop iteration does not leave the state unchanged. -/
theorem pipeline_guard_iff_witness :
    processEntry sampleCfg initState upperEntry ≠ some initState :=
  (pipeline_guard_iff sampleCfg initState upperEntry).mpr ⟨by decide, by decide⟩

/-- An entry failing a stage in the recoverable sense completes its loop
iteration with the failure counter incremented and the success counter
unchanged. -/
lemma processEntry_stage_fail (cfg : Config) (st : RunState) (e : Entry)
    (hf : failsAtSomeStage cfg e = true) :
    ∃ st', processEntry cfg st e = some st' ∧
      st'.success = st.success ∧ st'.fail = st.fail + 1 := by
  have hm : matchesFilterB cfg e = true := by
    have := hf
    simp only [failsAtSomeStage, Bool.and_eq_true] at this
    exact this.1
  obtain ⟨hdir, hcci⟩ := matchesFilterB_parts cfg e hm
  by_cases him1 : (import_mesh cfg.reg e.filename e.file).1 = true
  · have him2 : (import_mesh cfg.reg e.filename e.file).2 ≠ 0 := by
      intro h0
      simp [failsAtSomeStage, him1, h0] at hf
    by_cases hs : e.file.simplifyThrows = true
    · exact ⟨_, processEntry_simplify_fail cfg st e hdir hcci him1 him2 hs, rfl, rfl⟩
    · simp only [Bool.not_eq_true] at hs
      have hexf : (export_mesh cfg.reg (replace_extension e.filename objChars)
          e.file).1 = false := by
        by_cases hx : (export_mesh cfg.reg (replace_extension e.filename objChars)
            e.file).1 = true
        · exfalso
          simp [failsAtSomeStage, him1, him2, simplify, hs, hx] at hf
        · simpa using hx
      by_cases hx2 : (export_mesh cfg.reg (replace_extension e.filename objChars)
          e.file).2 = true
      · refine ⟨_, processEntry_to_export cfg st e hdir hcci him1 him2 hs, ?_, ?_⟩ <;>
          rw [exportStage_fail_texture cfg _ e (Prod.ext hexf hx2)]
      · simp only [Bool.not_eq_true] at hx2
        refine ⟨_, processEntry_to_export cfg st e hdir hcci him1 him2 hs, ?_, ?_⟩ <;>
          rw [exportStage_fail_save cfg _ e (Prod.ext hexf hx2)]
  · simp only [Bool.not_eq_true] at him1
    exact ⟨_, processEntry_import_fail cfg st e hdir hcci him1, rfl, rfl⟩

/-- One unfolding step of the loop. -/
lemma runFrom_cons (cfg : Config) (st : RunState) (e : Entry) (es : List Entry) :
    runFrom cfg st (e :: es) =
      (processEntry cfg st e).bind (fun s => runFrom cfg s es) := by
  simp only [runFrom]
  cases processEntry cfg st e <;> rfl

/-- C9: a per-file stage failure is never fatal to the batch — if the
entries before `k` complete with state `st1` and `k` fails some stage,
then `k`'s iteration completes (it only bumps the failure counter), the
run over the whole batch is exactly the run continuing through the
entries after `k`, and when it completes the counters still partition
the matching entries. -/
theorem per_file_failure_not_fatal :
    ∀ (cfg : Config) (pre : List Entry) (k : Entry) (post : List Entry)
      (st1 : RunState),
      failsAtSomeStage cfg k = true →
      runFrom cfg initState pre = some st1 →
        (processEntry cfg st1 k).isSome = true
        ∧ (processEntry cfg st1 k).map (fun s => (s.success, s.fail)) =
            some (st1.success, st1.fail + 1)
        ∧ runFrom cfg initState (pre ++ k :: post) =
            (processEntry cfg st1 k).bind (fun s => runFrom cfg s post)
        ∧ (∀ st3, runFrom cfg initState (pre ++ k :: post) = some st3 →
            st3.success + st3.fail = countMatching cfg (pre ++ k :: post)) := by
  intro cfg pre k post st1 hf hpre
  obtain ⟨st2, hst2, hsucc, hfail⟩ := processEntry_stage_fail cfg st1 k hf
  refine ⟨?_, ?_, ?_, ?_⟩
  · rw [hst2]; rfl
  · rw [hst2]
    simp [hsucc, hfail]
  · rw [runFrom_append cfg pre (k :: post) initState, hpre]
    exact runFrom_cons cfg st1 k post
  · intro st3 h3
    have := runFrom_counters cfg (pre ++ k :: post) initState st3 h3
    simpa [initState] using this

/-- Witness for C9: with a missing-file entry between two good entries,
the batch still processes the following entry and ends 2 successes to 1
failure. -/
theorem per_file_failure_not_fatal_witness :
    failsAtSomeStage sampleCfg importFailEntry = true
    ∧ runFrom sampleCfg initState
        ([goodEntry] ++ importFailEntry :: [nestedGoodEntry]) =
        (processEntry sampleCfg
            { success := 1, fail := 0, dirs := [[]],
              files := [([], ['x', '.', 'o', 'b', 'j'])] }
            importFailEntry).bind
          (fun s => runFrom sampleCfg s [nestedGoodEntry]) :=
  ⟨by decide,
   (per_file_failure_not_fatal sampleCfg [goodEntry] importFailEntry
       [nestedGoodEntry]
       { success := 1, fail := 0, dirs := [[]],
         files := [([], ['x', '.', 'o', 'b', 'j'])] }
       (by decide) (by decide)).2.2.1⟩

/-- C8 counterexample: the entry `a/b/c.3ds` fails its export stage, yet
after the run the destination tree contains the mirrored directories
`a` and `a/b` created on its behalf (while no output file was written),
so a failing entry does not always leave the destination tree free of
artefacts created for it. -/
theorem export_fail_leaves_mirrored_dirs :
    runFrom sampleCfg initState [exportFailEntry] =
      some { success := 0, fail := 1,
             dirs := [[], [['a']], [['a'], ['b']]], files := [] }
    ∧ failsAtSomeStage sampleCfg exportFailEntry = true
    ∧ [['a'], ['b']] ∈ [([] : List (List Char)), [['a']], [['a'], ['b']]] := by
  refine ⟨by decide, by decide, by decide⟩

/-- C8 (amended): an entry failing at import or at simplification is
abandoned with the run state unchanged except for the failure counter —
no output file and no directory is created for it.  An entry failing at
export keeps the mirrored parent directories of its output path, which
the loop created before attempting the export; when the failure comes
from the `save` call itself no output file is written, but when `save`
succeeded and only the texture export raised, the already-written
output mesh file also remains in the destination tree despite the
counted failure. -/
theorem stage_failure_frame :
    ∀ (cfg : Config) (st : RunState) (e : Entry),
      e.isDir = false →
      compare_case_insensitive (extensionOf e.filename) cfg.filter = true →
        ((import_mesh cfg.reg e.filename e.file).1 = false →
          processEntry cfg st e = some { st with fail := st.fail + 1 })
        ∧ ((import_mesh cfg.reg e.filename e.file).1 = true →
            (import_mesh cfg.reg e.filename e.file).2 ≠ 0 →
            e.file.simplifyThrows = true →
            processEntry cfg st e = some { st with fail := st.fail + 1 })
        ∧ ((import_mesh cfg.reg e.filename e.file).1 = true →
            (import_mesh cfg.reg e.filename e.file).2 ≠ 0 →
            e.file.simplifyThrows = false →
            export_mesh cfg.reg (replace_extension e.filename objChars) e.file
              = (false, false) →
            processEntry cfg st e =
              some { st with dirs := create_directories st.dirs e.relDirs,
                             fail := st.fail + 1 })
        ∧ ((import_mesh cfg.reg e.filename e.file).1 = true →
            (import_mesh cfg.reg e.filename e.file).2 ≠ 0 →
            e.file.simplifyThrows = false →
            export_mesh cfg.reg (replace_extension e.filename objChars) e.file
              = (false, true) →
            processEntry cfg st e =
              some { st with
                     dirs := create_directories st.dirs e.relDirs,
                     files := (e.relDirs, replace_extension e.filename objChars)
                       :: st.files,
                     fail := st.fail + 1 }) := by
  intro cfg st e hdir hcci
  refine ⟨?_, ?_, ?_, ?_⟩
  · intro him
    exact processEntry_import_fail cfg st e hdir hcci him
  · intro him1 him2 hs
    exact processEntry_simplify_fail cfg st e hdir hcci him1 him2 hs
  · intro him1 him2 hs hx
    rw [processEntry_to_export cfg st e hdir hcci him1 him2 hs]
    rw [exportStage_fail_save cfg _ e hx]
  · intro him1 him2 hs hx
    rw [processEntry_to_export cfg st e hdir hcci him1 him2 hs]
    rw [exportStage_fail_texture cfg _ e hx]

/-- Witness for C8 (amended), at the two export-failing entries under
`a/b`: the save-failing `c.3ds` ends with the failure counter bumped,
the mirrored directories created and no file recorded, while the
texture-failing `t.3ds` ends with the failure counter bumped and the
already-saved `t.obj` recorded in the destination tree. -/
theorem stage_failure_frame_witness :
    export_mesh sampleCfg.reg
        (replace_extension exportFailEntry.filename objChars)
        exportFailEntry.file = (false, false)
    ∧ processEntry sampleCfg initState exportFailEntry =
        some { initState with
               dirs := create_directories initState.dirs exportFailEntry.relDirs,
               fail := initState.fail + 1 }
    ∧ export_mesh sampleCfg.reg
        (replace_extension textureFailEntry.filename objChars)
        textureFailEntry.file = (false, true)
    ∧ processEntry sampleCfg initState textureFailEntry =
        some { initState with
               dirs := create_directories initState.dirs textureFailEntry.relDirs,
               files := (textureFailEntry.relDirs,
                   replace_extension textureFailEntry.filename objChars)
                 :: initState.files,
               fail := initState.fail + 1 } :=
  ⟨by decide,
   (stage_failure_frame sampleCfg initState exportFailEntry (by decide)
       (by decide)).2.2.1 (by decide) (by decide) (by decide) (by decide),
   by decide,
   (stage_failure_frame sampleCfg initState textureFailEntry (by decide)
       (by decide)).2.2.2 (by decide) (by decide) (by decide) (by decide)⟩

/-- `takeWhile` walks through a first segment all of whose elements
satisfy the predicate. -/
lemma takeWhile_append_all {α : Type} (p : α → Bool) (l1 l2 : List α)
    (h : ∀ a ∈ l1, p a = true) :
    (l1 ++ l2).takeWhile p = l1 ++ l2.takeWhile p := by
  induction l1 with
  | nil => simp
  | cons a l ih =>
    have ha := h a (by simp)
    simp only [List.cons_append, List.takeWhile_cons, ha, if_true]
    rw [ih (fun x hx => h x (by simp [hx]))]

/-- On a filename of the form `stem.rest` with a nonempty stem and a
dot-free last segment, `extension()` is exactly `.rest`. -/
lemma extensionOf_split (stem rest : List Char) (hstem : stem ≠ [])
    (hrest : '.' ∉ rest) (hne : stem ++ '.' :: rest ≠ ['.', '.']) :
    extensionOf (stem ++ '.' :: rest) = '.' :: rest := by
  have hs0 : stem.length ≠ 0 := fun h => hstem (List.length_eq_zero.mp h)
  have hne1 : stem ++ '.' :: rest ≠ ['.'] := by
    intro h
    have hl := congrArg List.length h
    simp [List.length_append] at hl
    omega
  have htw : ((stem ++ '.' :: rest).reverse.takeWhile (fun c => decide (c ≠ '.')))
      = rest.reverse := by
    have hrev : (stem ++ '.' :: rest).reverse = rest.reverse ++ '.' :: stem.reverse := by
      simp [List.reverse_append, List.reverse_cons]
    rw [hrev, takeWhile_append_all _ _ _ ?all]
    case all =>
      intro a ha
      have ham : a ∈ rest := List.mem_reverse.mp ha
      simp only [decide_eq_true_eq]
      intro h
      exact hrest (h ▸ ham)
    simp [List.takeWhile_cons]
  simp only [extensionOf, htw, List.reverse_reverse]
  rw [if_neg (not_or.mpr ⟨hne1, hne⟩)]
  rw [if_neg (by simp only [List.length_append, List.length_cons]; omega)]
  rw [if_neg (by simp only [List.length_append, List.length_cons]; omega)]

/-- On the same filenames, the stem returned by the path model is the
stem of the decomposition. -/
lemma stemOf_split (stem rest : List Char) (hstem : stem ≠ [])
    (hrest : '.' ∉ rest) (hne : stem ++ '.' :: rest ≠ ['.', '.']) :
    stemOf (stem ++ '.' :: rest) = stem := by
  unfold stemOf
  rw [extensionOf_split stem rest hstem hrest hne]
  rw [show (stem ++ '.' :: rest).length - ('.' :: rest).length = stem.length by
    simp [List.length_append]]
  exact List.take_left stem ('.' :: rest)

/-- `replace_extension` rewrites only the extension: `stem.rest` becomes
`stem` followed by the new extension. -/
lemma replace_extension_split (stem rest newExt : List Char) (hstem : stem ≠ [])
    (hrest : '.' ∉ rest) (hne : stem ++ '.' :: rest ≠ ['.', '.']) :
    replace_extension (stem ++ '.' :: rest) newExt = stem ++ newExt := by
  unfold replace_extension
  rw [stemOf_split stem rest hstem hrest hne]

/-- Every ancestor of the requested directory is present after
`create_directories`. -/
lemma mem_create_directories (s : List (List (List Char)))
    (d : List (List Char)) (a : List (List Char)) (ha : a ∈ ancestors d) :
    a ∈ create_directories s d := by
  unfold create_directories
  by_cases hm : a ∈ s
  · exact List.mem_append_left _ hm
  · refine List.mem_append_right _ ?_
    rw [List.mem_filter]
    exact ⟨ha, by simp [memB, hm]⟩

/-- After `create_directories s d`, the whole ancestor chain of `d` is
in the directory set. -/
lemma ancestors_all_created (s : List (List (List Char))) (d : List (List Char)) :
    (ancestors d).all (fun a => memB a (create_directories s d)) = true := by
  rw [List.all_eq_true]
  intro a ha
  simp only [memB, decide_eq_true_eq]
  exact mem_create_directories s d a ha

/-- C7: for a source file `<root>/a/b/stem.ext` that reaches the export
stage (import succeeded with a non-empty document, simplification
succeeded), the output name is `stem.obj` — the filename with its
extension replaced by the fixed output extension — placed under the same
relative directories re-rooted at the destination root; the loop reaches
the export call only after `create_directories`, at which point every
ancestor of the mirrored output directory exists in the destination
tree; and a successful export records exactly that mirrored path. -/
theorem mirrored_output_path :
    ∀ (cfg : Config) (st : RunState) (e : Entry) (stem rest : List Char) (n : ℕ),
      e.filename = stem ++ '.' :: rest →
      stem ≠ [] →
      '.' ∉ rest →
      e.filename ≠ ['.', '.'] →
      e.isDir = false →
      compare_case_insensitive (extensionOf e.filename) cfg.filter = true →
      import_mesh cfg.reg e.filename e.file = (true, n) →
      n ≠ 0 →
      e.file.simplifyThrows = false →
        replace_extension e.filename objChars = stem ++ objChars
        ∧ processEntry cfg st e =
            some (exportStage cfg
              { st with dirs := create_directories st.dirs e.relDirs } e)
        ∧ (ancestors e.relDirs).all
            (fun a => memB a (create_directories st.dirs e.relDirs)) = true
        ∧ ((export_mesh cfg.reg (replace_extension e.filename objChars) e.file).1
              = true →
            (exportStage cfg
                { st with dirs := create_directories st.dirs e.relDirs } e).files =
              (e.relDirs, stem ++ objChars) :: st.files) := by
  intro cfg st e stem rest n hname hstem hrest hne hdir hcci himp hn hs
  rw [hname] at hne
  have hrepl : replace_extension e.filename objChars = stem ++ objChars := by
    rw [hname]
    exact replace_extension_split stem rest objChars hstem hrest hne
  have him1 : (import_mesh cfg.reg e.filename e.file).1 = true := by rw [himp]
  have him2 : (import_mesh cfg.reg e.filename e.file).2 ≠ 0 := by rw [himp]; exact hn
  refine ⟨hrepl, processEntry_to_export cfg st e hdir hcci him1 him2 hs,
    ancestors_all_created st.dirs e.relDirs, ?_⟩
  intro hx
  rw [exportStage_ok cfg _ e hx, hrepl]

/-- Witness for C7 at the entry `a/b/c.3ds`: the output name is `c.obj`,
the loop hands the export stage a state in which the mirrored ancestor
chain (root, `a`, `a/b`) exists, and the recorded output is
`a/b/c.obj`. -/
theorem mirrored_output_path_witness :
    replace_extension nestedGoodEntry.filename objChars = ['c'] ++ objChars
    ∧ processEntry sampleCfg initState nestedGoodEntry =
        some (exportStage sampleCfg
          { initState with
            dirs := create_directories initState.dirs nestedGoodEntry.relDirs }
          nestedGoodEntry)
    ∧ (ancestors nestedGoodEntry.relDirs).all
        (fun a => memB a (create_directories initState.dirs nestedGoodEntry.relDirs))
        = true := by
  obtain ⟨h1, h2, h3, _⟩ :=
    mirrored_output_path sampleCfg initState nestedGoodEntry ['c'] ['3', 'd', 's'] 1
      (by decide) (by decide) (by decide) (by decide) (by decide) (by decide)
      (by decide) (by decide) (by decide)
  exact ⟨h1, h2, h3⟩

/-- C5: because `destination_setup` removes any existing destination root
entirely before recreating it, a batch's final destination tree does not
depend on the prior tree, so running the batch a second time over the
tree the first run produced yields exactly that tree again. -/
theorem destination_reset_idempotent :
    ∀ (cfg : Config) (entries : List Entry) (prior t1 : DestTree),
      full_batch cfg entries prior = some t1 →
      full_batch cfg entries t1 = some t1 := by
  intro cfg entries prior t1 h
  have hconst : full_batch cfg entries t1 = full_batch cfg entries prior := rfl
  rw [hconst, h]

/-- Witness for C5: running the one-good-entry batch over an empty prior
tree yields a tree with the root directory and `x.obj`, and running it
again over that tree yields the same tree. -/
theorem destination_reset_idempotent_witness :
    full_batch sampleCfg [goodEntry] ([[]], []) =
      some ([[]], [([], ['x', '.', 'o', 'b', 'j'])])
    ∧ full_batch sampleCfg [goodEntry] ([[]], [([], ['x', '.', 'o', 'b', 'j'])]) =
        some ([[]], [([], ['x', '.', 'o', 'b', 'j'])]) :=
  ⟨by decide,
   destination_reset_idempotent sampleCfg [goodEntry] ([[]], [])
     ([[]], [([], ['x', '.', 'o', 'b', 'j'])]) (by decide)⟩

/-- C10: whenever traversal completes, `main` returns exit code 0 — the
returned triple carries whatever the final counters are, but its exit
code component is 0 regardless of them. -/
theorem exit_code_always_zero :
    ∀ (cfg : Config) (entries : List Entry) (s f : ℕ) (c : ℤ),
      main_exit cfg entries = some (s, f, c) → c = 0 := by
  intro cfg entries s f c h
  unfold main_exit at h
  cases hr : runFrom cfg initState entries with
  | none => rw [hr] at h; cases h
  | some st =>
    rw [hr] at h
    have h' : (st.success, st.fail, (0 : ℤ)) = (s, f, c) := Option.some.inj h
    have hc := congrArg (fun p => p.2.2) h'
    exact hc.symm

/-- Witness for C10: a batch in which every file failed still exits with
code 0. -/
theorem exit_code_always_zero_witness :
    main_exit sampleCfg [importFailEntry] = some (0, 1, 0) ∧ (0 : ℤ) = 0 :=
  ⟨by decide, exit_code_always_zero sampleCfg [importFailEntry] 0 1 0 (by decide)⟩

/-- C1: evaluation at the failing input — an existing, readable `.3ds`
file with a registered importer whose underlying load raises
`MLException`.  The spec requires the import stage to fail there
(failure counted, import-error warning, pipeline advances without
reaching simplify); instead the source's catch block deletes the loaded
meshes and still returns `true`, so the import check passes with an
empty document, no failure is counted, and the loop goes on to
dereference the document's null current mesh — the run has no defined
result. -/
theorem load_error_import_returns_true :
    import_mesh sampleCfg.reg loadErrorEntry.filename loadErrorEntry.file = (true, 0)
    ∧ runFrom sampleCfg initState [loadErrorEntry] = none :=
  ⟨by decide, by decide⟩
